import Mathlib

/-!
Verification development for the jquery-popover widget.

The repository contains three near-duplicate revisions of the widget:
the primary file `src/jquery.popover.js` (two revisions, separated in the
source), the remote-content variant (`src/unnamed/part_000`) and the
registry variant (`src/unnamed/part_001`).  This file gives a shallow
embedding of the parts of those revisions that the claims are about:

* the template renderer (`htmlEncode`, `replacePlaceholders` in its two
  shapes: the module-level three-argument version building a global regex
  from the escaped placeholder name, and the per-instance version using a
  plain first-occurrence string replace);
* the per-instance visibility state machine (`show` / `hide` / `destroy`
  and the event handlers installed by `init`);
* the module-level instance registry and the hide-all-others sweep;
* the remote-fetch bookkeeping (`loadRemoteContent`);
* the plugin method dispatch (`$.fn[PLUGIN_NAME]`).

JavaScript strings are modelled as `List Char`.  Host (DOM / jQuery /
ECMAScript) behaviour that the source relies on is modelled from its
standard specification: HTML text-node serialisation (used by
`htmlEncode`), `String.prototype.replace` including its `$`-substitution
patterns and the `g` flag, `RegExp` construction over the fragment of
patterns the code can actually build, and conversion of `undefined` to the
string "undefined".
-/

/-- Characters treated as special by the escape step of the module-level
`replacePlaceholders` (src/jquery.popover.js line 72, src/unnamed/part_000
line 73): the character class `[.*+?\^=!:${}()|\[\]\/\\]`. -/
def SPECIALS : List Char :=
  ['.', '*', '+', '?', '^', '=', '!', ':', '$',
   Char.ofNat 123, Char.ofNat 125, '(', ')', '|', '[', ']', '/', '\\']

/-- Coerce a Lean string literal to the `List Char` model of JS strings. -/
def toL (s : String) : List Char := s.data

/-- HTML text-node serialisation of one character, as performed by the DOM
in `htmlEncode` (`createTextNode(text)` followed by reading `innerHTML`):
`&`, `<`, `>` and the non-breaking space are encoded; every other
character, including both quote characters, is emitted unchanged. -/
def htmlEncodeChar (c : Char) : List Char :=
  if c = '&' then toL "&amp;"
  else if c = '<' then toL "&lt;"
  else if c = '>' then toL "&gt;"
  else if c = Char.ofNat 160 then toL "&nbsp;"
  else [c]

/-- Embeds `htmlEncode` (src/jquery.popover.js lines 55-57):
`document.createElement('div').appendChild(document.createTextNode(text)).parentNode.innerHTML`. -/
def htmlEncode : List Char → List Char
  | [] => []
  | c :: rest => htmlEncodeChar c ++ htmlEncode rest

/-- Embeds the escape step `placeholder.replace(/([.*+?\^=!:${}()|\[\]\/\\])/g, "\\$1")`
(src/jquery.popover.js line 72). -/
def regexEscape : List Char → List Char
  | [] => []
  | c :: rest => (if c ∈ SPECIALS then ['\\', c] else [c]) ++ regexEscape rest

/-- Atoms of the regex fragment the code can build: an escaped character
(matching itself literally) or an unescaped `.` (matching any character). -/
inductive PTok where
  | any : PTok
  | lit : Char → PTok
deriving DecidableEq, Repr

/-- The pattern that matches a string literally. -/
def litPat (s : List Char) : List PTok := s.map PTok.lit

/-- Parser for the regex fragment reachable from `new RegExp('__' + placeholder + '__', 'g')`:
backslash-escaped special characters are literals, an unescaped `.` is a
wildcard, other unescaped special characters (quantifiers, anchors,
classes, groups) are outside the fragment and yield `none` (modelling
a pattern whose behaviour the embedding does not cover / a `RegExp`
constructor failure). -/
def parsePat : List Char → Option (List PTok)
  | [] => some []
  | c :: rest =>
    if c = '\\' then
      match rest with
      | [] => none
      | d :: rest2 =>
        if d ∈ SPECIALS then (parsePat rest2).map (fun p => PTok.lit d :: p) else none
    else if c = '.' then (parsePat rest).map (fun p => PTok.any :: p)
    else if c ∈ SPECIALS then none
    else (parsePat rest).map (fun p => PTok.lit c :: p)

/-- Match a pattern against a prefix of `s`; returns the rest of `s` on success. -/
def matchPat : List PTok → List Char → Option (List Char)
  | [], s => some s
  | _ :: _, [] => none
  | PTok.any :: p, _ :: s => matchPat p s
  | PTok.lit c :: p, d :: s => if c = d then matchPat p s else none

/-- ECMAScript `GetSubstitution` for a replacement string without capture
groups (the code's patterns have none): `$$` is a literal dollar, `$&` the
matched text, a backquote-dollar the text before the match, a
quote-dollar the text after it; any other `$` is literal. -/
def getSubst : List Char → List Char → List Char → List Char → List Char
  | [], _, _, _ => []
  | c :: rest, matched, pre, post =>
    if c = '$' then
      match rest with
      | [] => ['$']
      | d :: rest2 =>
        if d = '$' then '$' :: getSubst rest2 matched pre post
        else if d = '&' then matched ++ getSubst rest2 matched pre post
        else if d = Char.ofNat 96 then pre ++ getSubst rest2 matched pre post
        else if d = Char.ofNat 39 then post ++ getSubst rest2 matched pre post
        else '$' :: getSubst (d :: rest2) matched pre post
    else c :: getSubst rest matched pre post

/-- Left-to-right scan of `String.prototype.replace` with a `g`-flagged
pattern: at each position try the pattern; on a match emit the substituted
replacement and resume after the matched text, otherwise emit the current
character.  `pre` is the already-consumed original prefix (for the
backquote-dollar form); the fuel argument bounds the recursion and is
always called with more fuel than characters. -/
def scanRep (p : List PTok) (rep : List Char) : Nat → List Char → List Char → List Char
  | 0, _, s => s
  | fuel + 1, pre, s =>
    match matchPat p s with
    | some rest =>
      getSubst rep (s.take (s.length - rest.length)) pre rest ++
        scanRep p rep fuel (pre ++ s.take (s.length - rest.length)) rest
    | none =>
      match s with
      | [] => []
      | c :: s2 => c :: scanRep p rep fuel (pre ++ [c]) s2

/-- Embeds `s.replace(new RegExp(pat, 'g'), rep)`; `none` when `pat` falls
outside the modelled regex fragment. -/
def jsRegexReplaceAll (pat rep s : List Char) : Option (List Char) :=
  (parsePat pat).map (fun p => scanRep p rep (s.length + 1) [] s)

/-- Index of the first occurrence of `pat` in a string (JS `indexOf`). -/
def findLit (pat : List Char) : List Char → Option Nat
  | [] => if pat = [] then some 0 else none
  | c :: rest =>
    if pat.isPrefixOf (c :: rest) then some 0
    else (findLit pat rest).map (fun n => n + 1)

/-- Embeds `s.replace(pat, rep)` with a string `pat`: only the first
occurrence is replaced, with `GetSubstitution` applied to `rep`. -/
def jsStrReplaceFirst (pat rep s : List Char) : List Char :=
  match findLit pat s with
  | none => s
  | some i =>
    s.take i ++ getSubst rep pat (s.take i) (s.drop (i + pat.length)) ++
      s.drop (i + pat.length)

/-- Literal-substring replacement of every occurrence (leftmost,
non-overlapping), following the specification's description of the
renderer: every occurrence of the exact delimiter-wrapped name is replaced
by the value.  Used as the specification-side description the code is
compared against. -/
def replaceAllLit (pat rep : List Char) : Nat → List Char → List Char
  | 0, s => s
  | fuel + 1, s =>
    if pat ≠ [] ∧ pat.isPrefixOf s then
      rep ++ replaceAllLit pat rep fuel (s.drop pat.length)
    else
      match s with
      | [] => []
      | c :: s2 => c :: replaceAllLit pat rep fuel s2

/-- Specification-side renderer step: replace every occurrence of `pat` by `rep`. -/
def replaceEveryOcc (pat rep s : List Char) : List Char :=
  replaceAllLit pat rep (s.length + 1) s

/-- Property lookup on the data object (JS `data[name]`), `none` = `undefined`. -/
def lookupData : List (List Char × List Char) → List Char → Option (List Char)
  | [], _ => none
  | kv :: rest, k => if kv.1 = k then some kv.2 else lookupData rest k

/-- ECMAScript ToString applied where the code lets an `undefined` value
flow into a string position (`createTextNode(undefined)` and
`replace(re, undefined)` both yield the string "undefined"). -/
def jsStringOfUndef : Option (List Char) → List Char
  | some v => v
  | none => toL "undefined"

/-- Embeds the module-level `replacePlaceholders(html, data, escape)`
(src/jquery.popover.js lines 66-78, src/unnamed/part_000 lines 67-79).
The loop reassigns `placeholder` to its regex-escaped form *before*
reading `data[placeholder]`, so the lookup uses the escaped name; an
`undefined` result flows on as the string "undefined".  The `escape`
argument is the boolean after the code's `escape = escape !== false`
defaulting.  `none` models a pattern outside the embedded regex fragment
(never reached for escaped names, as proved below). -/
def replacePlaceholders (html : List Char) (data : List (List Char × List Char))
    (escape : Bool) : Option (List Char) :=
  data.foldl
    (fun acc kv =>
      match acc with
      | none => none
      | some h =>
        let ke := regexEscape kv.1
        let v := lookupData data ke
        let repl := if escape then htmlEncode (jsStringOfUndef v) else jsStringOfUndef v
        jsRegexReplaceAll (toL "__" ++ ke ++ toL "__") repl h)
    (some html)

/-- Embeds the per-instance `replacePlaceholders(html, data)` of the second
revision (src/jquery.popover.js lines 417-422) and of the registry variant
(src/unnamed/part_001 lines 161-166):
`html = html.replace('__'+ placeholder +'__', opts.escapeContent ? htmlEncode(value) : value)`
— a string-pattern replace, hence first occurrence only. -/
def replacePlaceholdersV2 (html : List Char) (data : List (List Char × List Char))
    (escapeContent : Bool) : List Char :=
  data.foldl
    (fun h kv =>
      jsStrReplaceFirst (toL "__" ++ kv.1 ++ toL "__")
        (if escapeContent then htmlEncode kv.2 else kv.2) h)
    html

/-- A placeholder name without regex-special characters. -/
def specialFree (k : List Char) : Prop := ∀ c ∈ k, c ∉ SPECIALS

instance (k : List Char) : Decidable (specialFree k) :=
  List.decidableBAll (fun c => c ∉ SPECIALS) k

/-- A value without `$`, hence inert under `GetSubstitution`. -/
def dollarFree (v : List Char) : Prop := '$' ∉ v

instance (v : List Char) : Decidable (dollarFree v) :=
  inferInstanceAs (Decidable ('$' ∉ v))


lemma getSubst_dollarFree (m pre post : List Char) :
    ∀ rep, dollarFree rep → getSubst rep m pre post = rep := by
  intro rep
  induction rep with
  | nil => intro _; rfl
  | cons c rest ih =>
    intro h
    have hc : c ≠ '$' := fun hcc => h (by simp [hcc])
    have h' : dollarFree rest := fun hm => h (List.mem_cons_of_mem _ hm)
    rw [getSubst.eq_def]
    simp [hc, ih h']

lemma backslash_mem_SPECIALS : '\\' ∈ SPECIALS := by decide

lemma dot_mem_SPECIALS : '.' ∈ SPECIALS := by decide

lemma litPat_nil : litPat [] = [] := rfl

lemma litPat_cons (c : Char) (s : List Char) : litPat (c :: s) = PTok.lit c :: litPat s := rfl

lemma parsePat_cons_other (c : Char) (rest : List Char) (h1 : c ≠ '\\') (h2 : c ≠ '.')
    (hc : c ∉ SPECIALS) :
    parsePat (c :: rest) = (parsePat rest).map (fun p => PTok.lit c :: p) := by
  rw [parsePat.eq_def]
  simp [h1, h2, hc]

lemma parsePat_cons_escaped (c : Char) (rest : List Char) (hc : c ∈ SPECIALS) :
    parsePat ('\\' :: c :: rest) = (parsePat rest).map (fun p => PTok.lit c :: p) := by
  rw [parsePat.eq_def]
  simp [hc]

lemma parsePat_escape_append (k : List Char) :
    parsePat (regexEscape k ++ toL "__") = some (litPat (k ++ toL "__")) := by
  induction k with
  | nil => decide
  | cons c k' ih =>
    by_cases hc : c ∈ SPECIALS
    · have he : regexEscape (c :: k') ++ toL "__" =
          '\\' :: c :: (regexEscape k' ++ toL "__") := by
        simp [regexEscape, hc]
      rw [he, parsePat_cons_escaped c _ hc, ih]
      simp [litPat_cons]
    · have h1 : c ≠ '\\' := fun h => hc (h ▸ backslash_mem_SPECIALS)
      have h2 : c ≠ '.' := fun h => hc (h ▸ dot_mem_SPECIALS)
      have he : regexEscape (c :: k') ++ toL "__" = c :: (regexEscape k' ++ toL "__") := by
        simp [regexEscape, hc]
      rw [he, parsePat_cons_other c _ h1 h2 hc, ih]
      simp [litPat_cons]

lemma parsePat_wrap (k : List Char) :
    parsePat (toL "__" ++ regexEscape k ++ toL "__") =
      some (litPat (toL "__" ++ k ++ toL "__")) := by
  have hu1 : ('_' : Char) ≠ '\\' := by decide
  have hu2 : ('_' : Char) ≠ '.' := by decide
  have hu3 : ('_' : Char) ∉ SPECIALS := by decide
  have he : toL "__" ++ regexEscape k ++ toL "__" =
      '_' :: '_' :: (regexEscape k ++ toL "__") := by simp [toL]
  rw [he, parsePat_cons_other _ _ hu1 hu2 hu3, parsePat_cons_other _ _ hu1 hu2 hu3,
    parsePat_escape_append k]
  have he2 : toL "__" ++ k ++ toL "__" = '_' :: '_' :: (k ++ toL "__") := by simp [toL]
  rw [he2]
  simp [litPat_cons]

lemma matchPat_litPat (p : List Char) :
    ∀ s, matchPat (litPat p) s =
      if p.isPrefixOf s then some (s.drop p.length) else none := by
  induction p with
  | nil => intro s; simp [litPat_nil, matchPat, List.isPrefixOf]
  | cons c p' ih =>
    intro s
    cases s with
    | nil => simp [litPat_cons, matchPat, List.isPrefixOf]
    | cons d s' =>
      by_cases hc : c = d
      · subst hc
        rw [litPat_cons]
        simp only [matchPat, if_pos rfl, ih s']
        simp [List.isPrefixOf]
      · rw [litPat_cons]
        simp only [matchPat, if_neg hc]
        simp [List.isPrefixOf, hc]

lemma scanRep_succ (pt : List PTok) (rep : List Char) (n : Nat) (pre s : List Char) :
    scanRep pt rep (n+1) pre s = match matchPat pt s with
    | some rest =>
      getSubst rep (s.take (s.length - rest.length)) pre rest ++
        scanRep pt rep n (pre ++ s.take (s.length - rest.length)) rest
    | none =>
      match s with
      | [] => []
      | c :: s2 => c :: scanRep pt rep n (pre ++ [c]) s2 := rfl

lemma replaceAllLit_succ (pat rep : List Char) (n : Nat) (s : List Char) :
    replaceAllLit pat rep (n+1) s = if pat ≠ [] ∧ pat.isPrefixOf s then
      rep ++ replaceAllLit pat rep n (s.drop pat.length)
    else
      match s with
      | [] => []
      | c :: s2 => c :: replaceAllLit pat rep n s2 := rfl

lemma scanRep_litPat (pat rep : List Char) (hp : pat ≠ []) (hr : dollarFree rep) :
    ∀ fuel pre s, scanRep (litPat pat) rep fuel pre s = replaceAllLit pat rep fuel s := by
  intro fuel
  induction fuel with
  | zero => intro pre s; rfl
  | succ n ih =>
    intro pre s
    rw [scanRep_succ, replaceAllLit_succ, matchPat_litPat]
    by_cases hpre : pat.isPrefixOf s
    · simp [hpre, hp, getSubst_dollarFree _ _ _ rep hr, ih]
    · have hand : ¬(pat ≠ [] ∧ pat.isPrefixOf s) := fun hand => hpre hand.2
      cases s with
      | nil => simp [hpre, hand]
      | cons c s2 => simp [hpre, hand, ih]

lemma regexEscape_specialFree (k : List Char) (h : specialFree k) : regexEscape k = k := by
  induction k with
  | nil => rfl
  | cons c k' ih =>
    have hc : c ∉ SPECIALS := h c (List.mem_cons_self c k')
    have h' : specialFree k' := fun d hd => h d (List.mem_cons_of_mem _ hd)
    simp [regexEscape, hc, ih h']

lemma htmlEncode_dollarFree : ∀ v, dollarFree v → dollarFree (htmlEncode v) := by
  intro v
  induction v with
  | nil => intro h; exact h
  | cons c rest ih =>
    intro h
    have hc : c ≠ '$' := fun hcc => h (by simp [hcc])
    have h' : dollarFree rest := fun hm => h (List.mem_cons_of_mem _ hm)
    have hhead : '$' ∉ htmlEncodeChar c := by
      unfold htmlEncodeChar
      split_ifs <;> first
        | decide
        | (simp only [List.mem_singleton]; exact fun e => hc e.symm)
    intro hm
    rcases List.mem_append.mp hm with h1 | h2
    · exact hhead h1
    · exact ih h' h2

lemma replacePlaceholders_single (html k v : List Char) (esc : Bool)
    (hk : specialFree k) (hv : dollarFree v) :
    replacePlaceholders html [(k, v)] esc =
      some (replaceEveryOcc (toL "__" ++ k ++ toL "__")
        (if esc then htmlEncode v else v) html) := by
  have hke : regexEscape k = k := regexEscape_specialFree k hk
  have hrepl : dollarFree (if esc then htmlEncode v else v) := by
    cases esc with
    | false => simpa using hv
    | true => simpa using htmlEncode_dollarFree v hv
  have hne : toL "__" ++ k ++ toL "__" ≠ [] := by simp [toL]
  have hparse : parsePat (toL "__" ++ k ++ toL "__") =
      some (litPat (toL "__" ++ k ++ toL "__")) := by
    have h := parsePat_wrap k
    rwa [hke] at h
  simp only [replacePlaceholders, List.foldl_cons, List.foldl_nil, hke,
    jsRegexReplaceAll, lookupData, if_pos rfl, if_true, jsStringOfUndef, hparse,
    Option.map_some']
  rw [scanRep_litPat (toL "__" ++ k ++ toL "__") _ hne hrepl]
  rfl

/-!
Visibility controller.  Embeds the per-instance state of the primary
revision's `Plugin` (src/jquery.popover.js lines 98-266): the
lazily-built popover element (`popover` plus a build counter used to state
"built at most once"), DOM attachment, the fade target opacity, the
`wasClicked` flag, the two debounce timers (modelled as pending flags),
the armed one-shot document click listener, and which handler sets are
currently bound.  Timer callbacks and the fade/detach animation are
modelled by their completed effect: `hide` runs its fade-out to the end
and detaches, `show`'s deferred one-tick listener registration is merged
into `show`.
-/
structure IState where
  /-- the `$popover` element has been built (it is never dropped) -/
  popover : Bool
  /-- how many times a popover element was built for this instance -/
  builds : Nat
  /-- `$popover.parent().length` is nonzero -/
  attached : Bool
  /-- target opacity of the last fade (1 after show, 0 after hide) -/
  opacity : Nat
  /-- `wasClicked` -/
  wasClicked : Bool
  /-- the `showTimeout` hover-delay timer is pending -/
  showPending : Bool
  /-- the `hideTimeout` hover-delay timer is pending -/
  hidePending : Bool
  /-- the one-shot `$doc.one('click.popover', self.hide)` listener is armed -/
  docListener : Bool
  /-- the `click/mouseenter/mouseleave.popover` handlers are bound on the trigger element -/
  triggerBound : Bool
  /-- the handlers bound on the popover element when it was built -/
  popoverBound : Bool
  /-- `destroy` has run -/
  destroyed : Bool
  /-- identity of the instance (used by the registry sweep's `instance === self`) -/
  id : Nat
deriving DecidableEq, Repr

/-- State of a freshly constructed instance after `init` (lines 152-186):
handlers bound on the trigger element, no popover element yet. -/
def initI (i : Nat) : IState :=
  { popover := false, builds := 0, attached := false, opacity := 0,
    wasClicked := false, showPending := false, hidePending := false,
    docListener := false, triggerBound := true, popoverBound := false,
    destroyed := false, id := i }

/-- Embeds `this.show` (lines 192-238) minus the hide-other-instances
sweep (which acts on the other instances only and is handled by the
global model below): clear the show timer; build the popover element and
bind its handlers if it does not exist yet; attach it if detached; fade to
opacity 1; arm the one-shot document click listener (deferred by one tick
in the code, merged here). -/
def showL (s : IState) : IState :=
  if s.popover then
    { s with showPending := false, attached := true, opacity := 1, docListener := true }
  else
    { s with showPending := false, popover := true, builds := s.builds + 1,
             popoverBound := true, attached := true, opacity := 1, docListener := true }

/-- Embeds `this.hide` (lines 243-252): clear the hide timer, remove the
document click listener, reset `wasClicked`; if a popover element exists,
fade it to 0 and (at the end of the fade) detach it — the element itself
is kept. -/
def hideL (s : IState) : IState :=
  if s.popover then
    { s with hidePending := false, docListener := false, wasClicked := false,
             opacity := 0, attached := false }
  else
    { s with hidePending := false, docListener := false, wasClicked := false }

/-- Embeds `this.destroy` (lines 258-262): `$el.find('*').addBack().off('.popover')`
removes the namespaced handlers from the trigger element (and its
descendants) only — the popover element's handlers, the armed document
listener, the pending timers and the popover element are untouched. -/
def destroyL (s : IState) : IState :=
  { s with triggerBound := false, destroyed := true }

/-- Events a single instance reacts to: the public operations, the trigger
element's handlers (lines 162-185), the expiry of the two debounce timers,
the armed document click, and the popover element's own handlers
(lines 198-211). -/
inductive LEv where
  | show | hide | destroy
  | clickTrigger | mouseenterTrigger | mouseleaveTrigger
  | fireShowTimer | fireHideTimer | docClick
  | mouseenterPopover | mouseleavePopover
deriving DecidableEq, Repr

/-- One step of the per-instance machine. -/
def lstep : LEv → IState → IState
  | LEv.show, s => showL s
  | LEv.hide, s => hideL s
  | LEv.destroy, s => destroyL s
  | LEv.clickTrigger, s =>
    if s.triggerBound then
      if s.popover && s.attached then hideL s
      else { showL s with wasClicked := true }
    else s
  | LEv.mouseenterTrigger, s =>
    if s.triggerBound then { s with hidePending := false, showPending := true } else s
  | LEv.mouseleaveTrigger, s =>
    if s.triggerBound then
      if s.wasClicked then { s with showPending := false }
      else { s with showPending := false, hidePending := true }
    else s
  | LEv.fireShowTimer, s =>
    if s.showPending then showL { s with showPending := false } else s
  | LEv.fireHideTimer, s =>
    if s.hidePending then hideL { s with hidePending := false } else s
  | LEv.docClick, s =>
    if s.docListener then hideL { s with docListener := false } else s
  | LEv.mouseenterPopover, s =>
    if s.popoverBound then { s with hidePending := false } else s
  | LEv.mouseleavePopover, s =>
    if s.popoverBound then
      if s.wasClicked then s
      else { s with showPending := false, hidePending := true }
    else s

/-- Run the instance from construction through a sequence of events. -/
def runI (evs : List LEv) : IState := evs.foldl (fun s e => lstep e s) (initI 0)

/-- The popover element is built at most once: the build counter is 1 when
the element exists and 0 before. -/
def InvBuild (s : IState) : Prop := s.builds = (if s.popover then 1 else 0)

lemma invBuild_lstep (e : LEv) (s : IState) (h : InvBuild s) : InvBuild (lstep e s) := by
  cases e <;>
    simp only [lstep, showL, hideL, destroyL, InvBuild] at h ⊢ <;>
    split_ifs at h ⊢ <;> simp_all

lemma invBuild_foldl :
    ∀ (evs : List LEv) (s : IState), InvBuild s →
      InvBuild (evs.foldl (fun s e => lstep e s) s) := by
  intro evs
  induction evs with
  | nil => intro s h; exact h
  | cons e evs ih => intro s h; exact ih _ (invBuild_lstep e s h)

lemma invBuild_runI (evs : List LEv) : InvBuild (runI evs) :=
  invBuild_foldl evs (initI 0) rfl

/-!
Registry layer.  The primary revision keeps every constructed instance in
the module-level `instances` array (`instances.push(self)` in `init`,
lines 157-159) and `show` hides every other live instance
(`$.each(instances, function (idx, instance) { instance === self || instance.hide(); })`,
lines 214-217).  The global state is the registry itself; instances are
identified by `id` (modelling the `instance === self` object identity
test).  `destroy` never touches the array.
-/
abbrev GState := List IState

/-- Apply a local update to the instance with identity `i`. -/
def atI (i : Nat) (f : IState → IState) (g : GState) : GState :=
  g.map (fun s => if s.id = i then f s else s)

/-- Embeds the body of `this.show` at registry level: the caller runs its
local show, every other registered instance gets its `hide()` called by
the sweep. -/
def gshow (i : Nat) (g : GState) : GState :=
  g.map (fun s => if s.id = i then showL s else hideL s)

/-- Look up the instance an event handler runs on. -/
def findInst (i : Nat) (g : GState) : Option IState :=
  g.find? (fun s => s.id == i)

/-- Global events: each local event, routed to one instance; events whose
handler calls `show` (the public `show`, the trigger click in its
show-branch, and the hover show timer) run the sweep. -/
inductive GEv where
  | show (i : Nat) | hide (i : Nat) | destroy (i : Nat)
  | clickTrigger (i : Nat) | mouseenterTrigger (i : Nat) | mouseleaveTrigger (i : Nat)
  | fireShowTimer (i : Nat) | fireHideTimer (i : Nat) | docClick (i : Nat)
  | mouseenterPopover (i : Nat) | mouseleavePopover (i : Nat)
deriving DecidableEq, Repr

/-- One step of the registry-level machine. -/
def gstep : GEv → GState → GState
  | GEv.show i, g => gshow i g
  | GEv.hide i, g => atI i hideL g
  | GEv.destroy i, g => atI i destroyL g
  | GEv.clickTrigger i, g =>
    match findInst i g with
    | none => g
    | some s =>
      if s.triggerBound then
        if s.popover && s.attached then atI i hideL g
        else atI i (fun t => { t with wasClicked := true }) (gshow i g)
      else g
  | GEv.mouseenterTrigger i, g => atI i (lstep LEv.mouseenterTrigger) g
  | GEv.mouseleaveTrigger i, g => atI i (lstep LEv.mouseleaveTrigger) g
  | GEv.fireShowTimer i, g =>
    match findInst i g with
    | none => g
    | some s =>
      if s.showPending then gshow i (atI i (fun t => { t with showPending := false }) g)
      else g
  | GEv.fireHideTimer i, g => atI i (lstep LEv.fireHideTimer) g
  | GEv.docClick i, g => atI i (lstep LEv.docClick) g
  | GEv.mouseenterPopover i, g => atI i (lstep LEv.mouseenterPopover) g
  | GEv.mouseleavePopover i, g => atI i (lstep LEv.mouseleavePopover) g

/-- Registry after constructing `n` instances on `n` distinct elements. -/
def ginit (n : Nat) : GState := (List.range n).map initI

/-- Run the registry from construction through a sequence of events. -/
def grun (n : Nat) (evs : List GEv) : GState :=
  evs.foldl (fun g e => gstep e g) (ginit n)

/-- Number of instances whose popover is attached to the document. -/
def attachedCount (g : GState) : Nat := g.countP (fun s => s.attached)

/-- Registry invariant: an attached popover exists, instance identities
are distinct, and at most one popover is attached. -/
def GoodG (g : GState) : Prop :=
  (∀ s ∈ g, s.attached = true → s.popover = true) ∧
    (g.map (fun s => s.id)).Nodup ∧ attachedCount g ≤ 1

instance (g : GState) : Decidable (GoodG g) := by
  unfold GoodG
  infer_instance

lemma lstep_id (e : LEv) (s : IState) : (lstep e s).id = s.id := by
  cases e <;> simp only [lstep, showL, hideL, destroyL] <;> split_ifs <;> rfl

lemma lstep_ap (e : LEv) (s : IState) (h : s.attached = true → s.popover = true) :
    (lstep e s).attached = true → (lstep e s).popover = true := by
  cases e <;> simp only [lstep, showL, hideL, destroyL] <;> (try split_ifs) <;> simp_all

lemma lstep_attach (e : LEv) (s : IState)
    (he1 : e ≠ LEv.show) (he2 : e ≠ LEv.clickTrigger) (he3 : e ≠ LEv.fireShowTimer) :
    (lstep e s).attached = true → s.attached = true := by
  cases e <;> simp_all [lstep, showL, hideL, destroyL] <;> (try split_ifs) <;> simp_all

lemma hideL_attached_false (t : IState) (h : t.attached = true → t.popover = true) :
    (hideL t).attached = false := by
  unfold hideL
  by_cases hp : t.popover
  · simp [hp]
  · simp only [hp, if_false]
    cases ha : t.attached
    · rfl
    · exact absurd (h ha) hp

lemma showL_popover (s : IState) : (showL s).popover = true := by
  unfold showL; split_ifs with hp
  · exact hp
  · rfl

lemma showL_attached (s : IState) : (showL s).attached = true := by
  unfold showL; split_ifs <;> rfl

lemma showL_id (s : IState) : (showL s).id = s.id := by
  unfold showL; split_ifs <;> rfl

lemma hideL_id (s : IState) : (hideL s).id = s.id := by
  unfold hideL; split_ifs <;> rfl

lemma attachedCount_cons (s : IState) (g : GState) :
    attachedCount (s :: g) = attachedCount g + (if s.attached then 1 else 0) := by
  simp [attachedCount, List.countP_cons]

lemma ids_map (g : GState) (F : IState → IState) (hF : ∀ s ∈ g, (F s).id = s.id) :
    (g.map F).map (fun s => s.id) = g.map (fun s => s.id) := by
  induction g with
  | nil => rfl
  | cons s g' ih =>
    simp only [List.map_cons, hF s (List.mem_cons_self s g'), List.cons.injEq, true_and]
    exact ih (fun t ht => hF t (List.mem_cons_of_mem _ ht))

lemma attachedCount_map_le (g : GState) (F : IState → IState)
    (hF : ∀ s ∈ g, (F s).attached = true → s.attached = true) :
    attachedCount (g.map F) ≤ attachedCount g := by
  induction g with
  | nil => exact Nat.le_refl 0
  | cons s g' ih =>
    simp only [List.map_cons, attachedCount_cons]
    have h1 : attachedCount (g'.map F) ≤ attachedCount g' :=
      ih (fun t ht => hF t (List.mem_cons_of_mem _ ht))
    have h2 : (if (F s).attached then 1 else 0) ≤ (if s.attached then 1 else 0) := by
      by_cases hfa : (F s).attached
      · simp [hfa, hF s (List.mem_cons_self s g') hfa]
      · simp [hfa]
    exact Nat.add_le_add h1 h2

lemma ap_map (g : GState) (F : IState → IState)
    (hg : ∀ s ∈ g, s.attached = true → s.popover = true)
    (hF : ∀ s ∈ g, (s.attached = true → s.popover = true) →
      ((F s).attached = true → (F s).popover = true)) :
    ∀ t ∈ g.map F, t.attached = true → t.popover = true := by
  intro t ht
  rcases List.mem_map.mp ht with ⟨s, hs, rfl⟩
  exact hF s hs (hg s hs)

lemma attachedCount_gshow_zero (b : Nat) (g : GState)
    (hap : ∀ s ∈ g, s.attached = true → s.popover = true)
    (hid : ∀ s ∈ g, s.id ≠ b) :
    attachedCount (gshow b g) = 0 := by
  induction g with
  | nil => rfl
  | cons s g' ih =>
    simp only [gshow, List.map_cons, attachedCount_cons,
      if_neg (hid s (List.mem_cons_self s g'))]
    rw [hideL_attached_false s (hap s (List.mem_cons_self s g'))]
    have := ih (fun t ht => hap t (List.mem_cons_of_mem _ ht))
      (fun t ht => hid t (List.mem_cons_of_mem _ ht))
    simpa [gshow] using this

lemma attachedCount_gshow_le (b : Nat) (g : GState)
    (hap : ∀ s ∈ g, s.attached = true → s.popover = true)
    (hnd : (g.map (fun s => s.id)).Nodup) :
    attachedCount (gshow b g) ≤ 1 := by
  induction g with
  | nil => exact Nat.zero_le 1
  | cons s g' ih =>
    rw [List.map_cons, List.nodup_cons] at hnd
    have hap' : ∀ t ∈ g', t.attached = true → t.popover = true :=
      fun t ht => hap t (List.mem_cons_of_mem _ ht)
    by_cases hb : s.id = b
    · have hzero : attachedCount (gshow b g') = 0 := by
        refine attachedCount_gshow_zero b g' hap' (fun t ht htb => ?_)
        have hmem : t.id ∈ g'.map (fun u => u.id) := List.mem_map_of_mem (fun u => u.id) ht
        rw [htb, ← hb] at hmem
        exact hnd.1 hmem
      simp only [gshow, List.map_cons, attachedCount_cons, if_pos hb]
      have : attachedCount (List.map (fun t => if t.id = b then showL t else hideL t) g') = 0 := by
        simpa [gshow] using hzero
      rw [this, showL_attached]
      simp
    · simp only [gshow, List.map_cons, attachedCount_cons, if_neg hb]
      rw [hideL_attached_false s (hap s (List.mem_cons_self s g'))]
      have := ih hap' hnd.2
      simpa [gshow] using this

/-- `show b` preserves the registry invariant. -/
lemma goodG_gshow (b : Nat) (g : GState) (h : GoodG g) : GoodG (gshow b g) := by
  obtain ⟨hap, hnd, _⟩ := h
  refine ⟨?_, ?_, attachedCount_gshow_le b g hap hnd⟩
  · intro t ht
    rcases List.mem_map.mp ht with ⟨s, hs, rfl⟩
    by_cases hb : s.id = b
    · rw [if_pos hb]
      intro _
      exact showL_popover s
    · rw [if_neg hb]
      rw [hideL_attached_false s (hap s hs)]
      intro hfalse
      exact absurd hfalse (by simp)
  · have : (gshow b g).map (fun s => s.id) = g.map (fun s => s.id) := by
      refine ids_map g _ (fun s _ => ?_)
      by_cases hb : s.id = b
      · rw [if_pos hb, showL_id]
      · rw [if_neg hb, hideL_id]
    rw [gshow] at this ⊢
    rw [this]
    exact hnd

/-- A per-instance update that keeps identity, keeps the
attached-implies-built implication and never attaches a detached popover
preserves the registry invariant. -/
lemma goodG_atI (i : Nat) (f : IState → IState) (g : GState)
    (hid : ∀ s, (f s).id = s.id)
    (hap : ∀ s, (s.attached = true → s.popover = true) →
      ((f s).attached = true → (f s).popover = true))
    (hat : ∀ s, (f s).attached = true → s.attached = true)
    (h : GoodG g) : GoodG (atI i f g) := by
  obtain ⟨hg, hnd, hcount⟩ := h
  refine ⟨?_, ?_, ?_⟩
  · refine ap_map g _ hg (fun s hs himpl => ?_)
    by_cases hb : s.id = i
    · rw [if_pos hb]; exact hap s himpl
    · rw [if_neg hb]; exact himpl
  · have : (atI i f g).map (fun s => s.id) = g.map (fun s => s.id) := by
      refine ids_map g _ (fun s _ => ?_)
      by_cases hb : s.id = i
      · rw [if_pos hb, hid]
      · rw [if_neg hb]
    rw [atI] at this ⊢
    rw [this]
    exact hnd
  · refine Nat.le_trans (attachedCount_map_le g _ (fun s _ => ?_)) hcount
    by_cases hb : s.id = i
    · rw [if_pos hb]; exact hat s
    · rw [if_neg hb]; exact fun x => x

/-- Every registry-level event preserves the invariant. -/
lemma goodG_gstep (e : GEv) (g : GState) (h : GoodG g) : GoodG (gstep e g) := by
  cases e with
  | «show» i => exact goodG_gshow i g h
  | hide i =>
    exact goodG_atI i hideL g (fun s => hideL_id s)
      (fun s hi => lstep_ap LEv.hide s hi)
      (fun s => lstep_attach LEv.hide s (by decide) (by decide) (by decide)) h
  | destroy i =>
    exact goodG_atI i destroyL g (fun s => rfl) (fun s hi => hi) (fun s x => x) h
  | clickTrigger i =>
    simp only [gstep]
    split
    · exact h
    · split_ifs with hb hpa
      · exact goodG_atI i hideL g (fun s => hideL_id s)
          (fun s hi => lstep_ap LEv.hide s hi)
          (fun s => lstep_attach LEv.hide s (by decide) (by decide) (by decide)) h
      · exact goodG_atI i (fun t => { t with wasClicked := true }) (gshow i g)
          (fun s => rfl) (fun s hi => hi) (fun s x => x) (goodG_gshow i g h)
      · exact h
  | mouseenterTrigger i =>
    exact goodG_atI i (lstep LEv.mouseenterTrigger) g
      (fun s => lstep_id LEv.mouseenterTrigger s)
      (fun s hi => lstep_ap LEv.mouseenterTrigger s hi)
      (fun s => lstep_attach LEv.mouseenterTrigger s (by decide) (by decide) (by decide)) h
  | mouseleaveTrigger i =>
    exact goodG_atI i (lstep LEv.mouseleaveTrigger) g
      (fun s => lstep_id LEv.mouseleaveTrigger s)
      (fun s hi => lstep_ap LEv.mouseleaveTrigger s hi)
      (fun s => lstep_attach LEv.mouseleaveTrigger s (by decide) (by decide) (by decide)) h
  | fireShowTimer i =>
    simp only [gstep]
    split
    · exact h
    · split_ifs with hp
      · exact goodG_gshow i _
          (goodG_atI i (fun t => { t with showPending := false }) g
            (fun s => rfl) (fun s hi => hi) (fun s x => x) h)
      · exact h
  | fireHideTimer i =>
    exact goodG_atI i (lstep LEv.fireHideTimer) g
      (fun s => lstep_id LEv.fireHideTimer s)
      (fun s hi => lstep_ap LEv.fireHideTimer s hi)
      (fun s => lstep_attach LEv.fireHideTimer s (by decide) (by decide) (by decide)) h
  | docClick i =>
    exact goodG_atI i (lstep LEv.docClick) g
      (fun s => lstep_id LEv.docClick s)
      (fun s hi => lstep_ap LEv.docClick s hi)
      (fun s => lstep_attach LEv.docClick s (by decide) (by decide) (by decide)) h
  | mouseenterPopover i =>
    exact goodG_atI i (lstep LEv.mouseenterPopover) g
      (fun s => lstep_id LEv.mouseenterPopover s)
      (fun s hi => lstep_ap LEv.mouseenterPopover s hi)
      (fun s => lstep_attach LEv.mouseenterPopover s (by decide) (by decide) (by decide)) h
  | mouseleavePopover i =>
    exact goodG_atI i (lstep LEv.mouseleavePopover) g
      (fun s => lstep_id LEv.mouseleavePopover s)
      (fun s hi => lstep_ap LEv.mouseleavePopover s hi)
      (fun s => lstep_attach LEv.mouseleavePopover s (by decide) (by decide) (by decide)) h

lemma goodG_ginit (n : Nat) : GoodG (ginit n) := by
  refine ⟨?_, ?_, ?_⟩
  · intro s hs
    rcases List.mem_map.mp hs with ⟨k, _, rfl⟩
    intro hfalse
    exact absurd hfalse (by simp [initI])
  · have : (ginit n).map (fun s => s.id) = List.range n := by
      rw [ginit, List.map_map]
      exact List.map_id (List.range n)
    rw [this]
    exact List.nodup_range n
  · have : attachedCount (ginit n) = 0 := by
      refine List.countP_eq_zero.mpr (fun s hs => ?_)
      rcases List.mem_map.mp hs with ⟨k, _, rfl⟩
      simp [initI]
    rw [attachedCount] at this
    rw [attachedCount, this]
    exact Nat.zero_le 1

lemma goodG_foldl :
    ∀ (evs : List GEv) (g : GState), GoodG g →
      GoodG (evs.foldl (fun g e => gstep e g) g) := by
  intro evs
  induction evs with
  | nil => intro g h; exact h
  | cons e evs ih => intro g h; exact ih _ (goodG_gstep e g h)

lemma goodG_grun (n : Nat) (evs : List GEv) : GoodG (grun n evs) :=
  goodG_foldl evs (ginit n) (goodG_ginit n)

/-!
Remote fetch.  Embeds the request bookkeeping of `loadRemoteContent`
(src/unnamed/part_000 lines 198-221): `runningRequest` holds the current
jqXHR or null; before issuing a new request an existing one is aborted
(jQuery runs its `complete` handler, which sets `runningRequest = null`,
synchronously during `abort()`); the `complete` handler of a natural
completion does the same.  Requests are identified by a counter; `inflight`
is the set of requests issued and neither completed nor aborted.
-/
structure FState where
  /-- `runningRequest` -/
  running : Option Nat
  /-- requests issued and not yet completed or aborted -/
  inflight : List Nat
  /-- next fresh request identity -/
  nextId : Nat
deriving DecidableEq, Repr

/-- `runningRequest.abort()` followed by its synchronous `complete`
handler (`runningRequest = null`); no-op when no request is running. -/
def abortPrev (f : FState) : FState :=
  match f.running with
  | none => f
  | some r => { running := none, inflight := f.inflight.erase r, nextId := f.nextId }

/-- Embeds `loadRemoteContent`: abort any running request, then issue the
new one and remember it in `runningRequest`. -/
def loadRC (f : FState) : FState :=
  let f1 := abortPrev f
  { running := some f1.nextId, inflight := f1.nextId :: f1.inflight,
    nextId := f1.nextId + 1 }

/-- Natural completion of request `r` (success or failure): its `complete`
handler sets `runningRequest = null`; nothing happens if `r` is no longer
alive. -/
def completeRC (r : Nat) (f : FState) : FState :=
  if r ∈ f.inflight then
    { running := none, inflight := f.inflight.erase r, nextId := f.nextId }
  else f

/-- Fetch events: the instance issues a fetch, or a live request completes. -/
inductive FEv where
  | load : FEv
  | finish : Nat → FEv
deriving DecidableEq, Repr

def fstep : FEv → FState → FState
  | FEv.load, f => loadRC f
  | FEv.finish r, f => completeRC r f

/-- Instance construction: no request yet. -/
def finitF : FState := { running := none, inflight := [], nextId := 0 }

def frun (evs : List FEv) : FState := evs.foldl (fun f e => fstep e f) finitF

/-- Fetch invariant: the in-flight requests are exactly the running one
(so at most one), and request identities are below the counter. -/
def GoodF (f : FState) : Prop :=
  f.inflight = (match f.running with | none => [] | some r => [r]) ∧
    (∀ r ∈ f.inflight, r < f.nextId)

instance (f : FState) : Decidable (GoodF f) := by
  unfold GoodF
  infer_instance

lemma goodF_fstep (e : FEv) (f : FState) (h : GoodF f) : GoodF (fstep e f) := by
  obtain ⟨hfl, hbound⟩ := h
  cases e with
  | load =>
    cases hr : f.running with
    | none =>
      rw [hr] at hfl
      refine ⟨?_, ?_⟩
      · simp [fstep, loadRC, abortPrev, hr, hfl]
      · intro r hrm
        simp only [fstep, loadRC, abortPrev, hr, hfl] at hrm ⊢
        simp only [List.mem_singleton] at hrm
        omega
    | some r0 =>
      rw [hr] at hfl
      refine ⟨?_, ?_⟩
      · simp [fstep, loadRC, abortPrev, hr, hfl]
      · intro r hrm
        simp only [fstep, loadRC, abortPrev, hr, hfl] at hrm ⊢
        simp only [List.erase_cons_head, List.mem_singleton] at hrm
        omega
  | finish r =>
    by_cases hrm : r ∈ f.inflight
    · cases hr : f.running with
      | none =>
        rw [hr] at hfl
        rw [hfl] at hrm
        exact absurd hrm (List.not_mem_nil r)
      | some r0 =>
        rw [hr] at hfl
        have hrr0 : r = r0 := by
          rw [hfl] at hrm
          simpa using hrm
        subst hrr0
        refine ⟨?_, ?_⟩
        · simp [fstep, completeRC, hrm, hfl]
        · intro x hx
          simp only [fstep, completeRC, if_pos hrm] at hx
          rw [hfl] at hx
          simp at hx
    · refine ⟨?_, ?_⟩
      · simp only [fstep, completeRC, if_neg hrm]
        exact hfl
      · intro x hx
        simp only [fstep, completeRC, if_neg hrm] at hx ⊢
        exact hbound x hx

lemma goodF_foldl :
    ∀ (evs : List FEv) (f : FState), GoodF f →
      GoodF (evs.foldl (fun f e => fstep e f) f) := by
  intro evs
  induction evs with
  | nil => intro f h; exact h
  | cons e evs ih => intro f h; exact ih _ (goodF_fstep e f h)

lemma goodF_frun (evs : List FEv) : GoodF (frun evs) :=
  goodF_foldl evs finitF (by constructor <;> simp [finitF])

/-!
Method dispatch.  Embeds the string-operation branch of `$.fn[PLUGIN_NAME]`
(src/jquery.popover.js lines 284-292): a string first argument names a
member of the instance; if `typeof instance[name] === 'function'` it is
invoked, otherwise `$.error('Method "<name>" does not exist for popover plugin')`
is raised.  The instance's own function-valued members are its public
operations `show`, `hide`, `destroy`; property lookup in JavaScript also
reaches the function-valued properties inherited from the object
prototype chain (`constructor` and the standard `Object.prototype`
methods), which therefore also pass the `typeof` test. -/
def PLUGIN_NAME : String := "popover"

/-- The public operations assigned on the instance itself. -/
def publicOps : List String := ["show", "hide", "destroy"]

/-- Function-valued properties every plain object inherits from its
prototype chain in JavaScript (ECMAScript `Object.prototype` methods,
including the Annex B accessor-definition methods, plus `constructor`). -/
def inheritedFnProps : List String :=
  ["constructor", "hasOwnProperty", "isPrototypeOf", "propertyIsEnumerable",
   "toLocaleString", "toString", "valueOf",
   "__defineGetter__", "__defineSetter__", "__lookupGetter__", "__lookupSetter__"]

/-- Embeds the dispatch decision: invoke the member when it is a function,
report an error otherwise. -/
def dispatch (op : String) : Except String String :=
  if op ∈ publicOps ∨ op ∈ inheritedFnProps then Except.ok op
  else Except.error ("Method \"" ++ op ++ "\" does not exist for " ++ PLUGIN_NAME ++ " plugin")

/-!
Claim theorems.
-/

/-- C1 (counterexample): two conjuncts of the claim fail on the code.
The claim says escape=true encodes quote characters, but `htmlEncode`
(DOM text-node serialisation) leaves the double quote unchanged, so
`render("__a__", {a: '"'}, true)` returns the bare quote, not an encoding
of it.  The claim also says escape=false inserts the value verbatim, but
the value is inserted as a `String.prototype.replace` replacement string,
whose `$`-substitution applies: `render("__a__", {a: "$$"}, false)`
returns `"$"`, not `"$$"`. -/
theorem c1_counterexample :
    replacePlaceholders (toL "__a__") [(toL "a", [Char.ofNat 34])] true
      = some [Char.ofNat 34] ∧
    ([Char.ofNat 34] : List Char) ≠ toL "&quot;" ∧
    replacePlaceholders (toL "__a__") [(toL "a", toL "$$")] false = some (toL "$") ∧
    toL "$" ≠ toL "$$" := by decide

/-- C1 (amended): with escape=true every substituted value is HTML-encoded
before insertion, where the encoding maps `&`, `<`, `>` (and the
non-breaking space) to entities but leaves both quote characters
unchanged; the (encoded or raw) value is then inserted as a host
replacement string, so `$` sequences are expanded rather than copied
(`$$` collapses to `$`, `$&` inserts the matched placeholder text — with
escape=true a value `$&` even yields `__a__amp;`): only a value without
`$` is inserted verbatim.  Both of the claim's example evaluations hold;
the general statements are for a placeholder name without pattern-special
characters (the special-name lookup slip is C3's certified bug) and a
value without `$`. -/
theorem c1_render_escaping (html k v : List Char)
    (hk : specialFree k) (hv : dollarFree v) :
    replacePlaceholders (toL "__a__-__b__") [(toL "a", toL "<x>"), (toL "b", toL "y")] true
      = some (toL "&lt;x&gt;-y") ∧
    replacePlaceholders (toL "__a__-__b__") [(toL "a", toL "<x>"), (toL "b", toL "y")] false
      = some (toL "<x>-y") ∧
    htmlEncode (toL "&<>") = toL "&amp;&lt;&gt;" ∧
    htmlEncode [Char.ofNat 34] = [Char.ofNat 34] ∧
    htmlEncode [Char.ofNat 39] = [Char.ofNat 39] ∧
    replacePlaceholders html [(k, v)] true =
      some (replaceEveryOcc (toL "__" ++ k ++ toL "__") (htmlEncode v) html) ∧
    replacePlaceholders html [(k, v)] false =
      some (replaceEveryOcc (toL "__" ++ k ++ toL "__") v html) ∧
    replacePlaceholders (toL "__a__") [(toL "a", toL "$$")] false = some (toL "$") ∧
    replacePlaceholders (toL "__a__") [(toL "a", toL "$&")] false = some (toL "__a__") ∧
    replacePlaceholders (toL "__a__") [(toL "a", toL "$&")] true
      = some (toL "__a__amp;") := by
  refine ⟨by decide, by decide, by decide, by decide, by decide, ?_, ?_,
    by decide, by decide, by decide⟩
  · simpa using replacePlaceholders_single html k v true hk hv
  · simpa using replacePlaceholders_single html k v false hk hv

/-- C1 (witness): the amended theorem applied at a concrete input. -/
theorem c1_witness :
    replacePlaceholders (toL "__k__") [(toL "k", toL "v")] true =
      some (replaceEveryOcc (toL "__" ++ toL "k" ++ toL "__") (htmlEncode (toL "v"))
        (toL "__k__")) :=
  (c1_render_escaping (toL "__k__") (toL "k") (toL "v") (by decide) (by decide)).2.2.2.2.2.1

/-- C2 (counterexample): in the revisions that use a plain string replace
(second revision of src/jquery.popover.js, and src/unnamed/part_001), only
the first occurrence of a placeholder is replaced, contradicting the
claim's "every occurrence — not just the first". -/
theorem c2_counterexample :
    replacePlaceholdersV2 (toL "__a__ __a__") [(toL "a", toL "x")] true = toL "x __a__" ∧
    toL "x __a__" ≠ toL "x x" := by decide

/-- C2 (amended): in the module-level renderer with the escape parameter
(the one building a `g`-flagged pattern) every occurrence of the
delimiter-wrapped name is replaced and matching is exact-name; in the
revisions using a plain string replace only the first occurrence is
replaced (matching is still literal and exact-name). -/
theorem c2_occurrences (html k v : List Char) (esc : Bool)
    (hk : specialFree k) (hv : dollarFree v) :
    replacePlaceholders html [(k, v)] esc =
      some (replaceEveryOcc (toL "__" ++ k ++ toL "__")
        (if esc then htmlEncode v else v) html) ∧
    replacePlaceholders (toL "__a__ __a__ __a__") [(toL "a", toL "x")] true
      = some (toL "x x x") ∧
    replacePlaceholders (toL "__ab__") [(toL "a", toL "x")] true = some (toL "__ab__") ∧
    replacePlaceholdersV2 (toL "__a__ __a__") [(toL "a", toL "x")] true = toL "x __a__" ∧
    replacePlaceholdersV2 (toL "__ab__") [(toL "a", toL "x")] true = toL "__ab__" :=
  ⟨replacePlaceholders_single html k v esc hk hv, by decide, by decide, by decide, by decide⟩

/-- C2 (witness): the amended theorem applied at a concrete input. -/
theorem c2_witness :
    replacePlaceholders (toL "z__k__z__k__") [(toL "k", toL "v")] true =
      some (replaceEveryOcc (toL "__" ++ toL "k" ++ toL "__")
        (if true then htmlEncode (toL "v") else toL "v") (toL "z__k__z__k__")) :=
  (c2_occurrences (toL "z__k__z__k__") (toL "k") (toL "v") true (by decide) (by decide)).1

/-- C3 (code bug): for the key literally named `a.b` the module-level
renderer does match only the literal `__a.b__` occurrence and does not
crash, but it replaces it with the string "undefined" instead of the
key's value: the loop variable is overwritten with its regex-escaped form
before the `data[placeholder]` lookup, so the lookup misses. -/
theorem c3_escaped_lookup_bug :
    replacePlaceholders (toL "__a.b__") [(toL "a.b", toL "V")] true
      = some (toL "undefined") ∧
    replacePlaceholders (toL "__a.b__") [(toL "a.b", toL "V")] false
      = some (toL "undefined") ∧
    toL "undefined" ≠ toL "V" := by decide

/-- C4: from any reachable state of an instance, the build counter never
exceeds one, and two immediately successive `show()` calls leave exactly
one popover element built and attached (the element is built once and
reused). -/
theorem c4_show_idempotent_single_build (evs : List LEv) :
    (runI evs).builds ≤ 1 ∧
    (lstep LEv.show (lstep LEv.show (runI evs))).builds = 1 ∧
    (lstep LEv.show (lstep LEv.show (runI evs))).attached = true ∧
    (lstep LEv.show (lstep LEv.show (runI evs))).popover = true := by
  have h0 : InvBuild (runI evs) := invBuild_runI evs
  have h2 : InvBuild (lstep LEv.show (lstep LEv.show (runI evs))) :=
    invBuild_lstep LEv.show _ (invBuild_lstep LEv.show _ h0)
  have hpop : (lstep LEv.show (lstep LEv.show (runI evs))).popover = true :=
    showL_popover (lstep LEv.show (runI evs))
  refine ⟨?_, ?_, ?_, hpop⟩
  · rw [InvBuild] at h0
    rw [h0]
    split_ifs <;> omega
  · rw [InvBuild] at h2
    rw [h2, hpop]
    rfl
  · exact showL_attached (lstep LEv.show (runI evs))

/-- C5: in the registry variant at most one popover is attached in any
reachable registry state, and showing instance `b` applies `hide()` to
every other registered instance, leaving each of them detached. -/
theorem c5_mutual_exclusivity (n : Nat) (evs : List GEv) (g : GState) (b : Nat)
    (hg : GoodG g) :
    attachedCount (grun n evs) ≤ 1 ∧
    attachedCount (gstep (GEv.show b) g) ≤ 1 ∧
    (∀ s ∈ g, s.id ≠ b →
      hideL s ∈ gstep (GEv.show b) g ∧ (hideL s).attached = false) := by
  refine ⟨(goodG_grun n evs).2.2, (goodG_gstep (GEv.show b) g hg).2.2, ?_⟩
  intro s hs hne
  constructor
  · exact List.mem_map.mpr ⟨s, hs, by simp [hne]⟩
  · exact hideL_attached_false s (hg.1 s hs)

/-- C5 (witness): the theorem applied to a concrete two-instance registry
in which instance 0 is shown and instance 1 is then shown. -/
theorem c5_witness :
    hideL (showL (initI 0)) ∈ gstep (GEv.show 1) [showL (initI 0), initI 1] ∧
    (hideL (showL (initI 0))).attached = false :=
  (c5_mutual_exclusivity 0 [] [showL (initI 0), initI 1] 1 (by decide)).2.2
    (showL (initI 0)) (List.mem_cons_self _ _) (by decide)

/-- C6 (counterexample): in the state reached by `show` followed by a
trigger mouseenter (shown, with the hover show-delay timer pending),
`hide` leaves the show-delay timer pending — the claim says a RequestHide
cancels any pending show-delay timer, but the code's `hide` clears
`hideTimeout`, not `showTimeout`. -/
theorem c6_counterexample :
    (lstep LEv.mouseenterTrigger (lstep LEv.show (initI 0))).popover = true ∧
    (lstep LEv.mouseenterTrigger (lstep LEv.show (initI 0))).attached = true ∧
    (lstep LEv.mouseenterTrigger (lstep LEv.show (initI 0))).showPending = true ∧
    (lstep LEv.hide
      (lstep LEv.mouseenterTrigger (lstep LEv.show (initI 0)))).showPending = true := by
  decide

/-- C6 (amended): on an instance whose popover element exists, `hide`
cancels any pending hide-delay timer (not the show-delay timer), removes
the one-shot document click listener, resets the click flag, fades the
popover to opacity 0 and detaches it, while the element itself is
retained (not destroyed) and the build counter is unchanged. -/
theorem c6_hide_effects (s : IState) (h : s.popover = true) :
    (lstep LEv.hide s).hidePending = false ∧
    (lstep LEv.hide s).docListener = false ∧
    (lstep LEv.hide s).wasClicked = false ∧
    (lstep LEv.hide s).opacity = 0 ∧
    (lstep LEv.hide s).attached = false ∧
    (lstep LEv.hide s).popover = true ∧
    (lstep LEv.hide s).builds = s.builds := by
  simp [lstep, hideL, h]

/-- C6 (witness): the amended theorem applied to the shown initial instance. -/
theorem c6_witness :
    (lstep LEv.hide (lstep LEv.show (initI 0))).attached = false ∧
    (lstep LEv.hide (lstep LEv.show (initI 0))).popover = true :=
  ⟨(c6_hide_effects (lstep LEv.show (initI 0)) (by decide)).2.2.2.2.1,
   (c6_hide_effects (lstep LEv.show (initI 0)) (by decide)).2.2.2.2.2.1⟩

/-- C7 (counterexample): destroying a shown instance leaves the armed
document-level click listener and the popover element's handlers in
place (the claim says destroy detaches them), and a subsequent document
click still changes the destroyed instance's state. -/
theorem c7_counterexample :
    (lstep LEv.show (initI 0)).docListener = true ∧
    (lstep LEv.show (initI 0)).popoverBound = true ∧
    (lstep LEv.destroy (lstep LEv.show (initI 0))).docListener = true ∧
    (lstep LEv.destroy (lstep LEv.show (initI 0))).popoverBound = true ∧
    (lstep LEv.destroy (lstep LEv.show (initI 0))).attached = true ∧
    (lstep LEv.docClick
      (lstep LEv.destroy (lstep LEv.show (initI 0)))).attached = false := by
  decide

/-- C7 (amended): `destroy` removes only the handlers bound on the trigger
element, so after destroy no trigger-element interaction (click,
mouseenter, mouseleave) changes the state; the popover element's handlers
and the armed document-level click listener are not detached. -/
theorem c7_destroy_unbinds_trigger_only (s : IState) :
    lstep LEv.clickTrigger (lstep LEv.destroy s) = lstep LEv.destroy s ∧
    lstep LEv.mouseenterTrigger (lstep LEv.destroy s) = lstep LEv.destroy s ∧
    lstep LEv.mouseleaveTrigger (lstep LEv.destroy s) = lstep LEv.destroy s ∧
    (lstep LEv.destroy s).docListener = s.docListener ∧
    (lstep LEv.destroy s).popoverBound = s.popoverBound ∧
    (lstep LEv.destroy s).popover = s.popover := by
  simp [lstep, destroyL]

/-- C8 (counterexample): the dispatch test is
`typeof instance[name] === 'function'`, which also accepts function-valued
properties inherited from the object prototype, so the unknown operation
name "toString" is invoked without any error even though it is not a
public operation. -/
theorem c8_counterexample :
    dispatch "toString" = Except.ok "toString" ∧ "toString" ∉ publicOps :=
  ⟨rfl, by decide⟩

/-- C8 (amended): a string operation name that names neither a public
operation (`show`, `hide`, `destroy`) nor a function inherited from the
object prototype fails with an error identifying the name and the widget
name; the public operations are dispatched without error. -/
theorem c8_unknown_method_errors (op : String)
    (h1 : op ∉ publicOps) (h2 : op ∉ inheritedFnProps) :
    dispatch op =
      Except.error ("Method \"" ++ op ++ "\" does not exist for " ++
        PLUGIN_NAME ++ " plugin") ∧
    (∀ k ∈ publicOps, dispatch k = Except.ok k) := by
  constructor
  · simp [dispatch, h1, h2]
  · intro k hk
    simp [dispatch, hk]

/-- C8 (witness): the amended theorem applied at a concrete unknown name. -/
theorem c8_witness :
    dispatch "frobnicate" =
      Except.error ("Method \"" ++ "frobnicate" ++ "\" does not exist for " ++
        PLUGIN_NAME ++ " plugin") :=
  (c8_unknown_method_errors "frobnicate" (by decide) (by decide)).1

/-- C9: in every reachable fetch state at most one request is in flight,
and issuing a new fetch while request `r` is running aborts `r` (it is no
longer in flight) before the new request becomes the single running one. -/
theorem c9_single_fetch (evs : List FEv) (f : FState) (r : Nat)
    (hf : GoodF f) (hr : f.running = some r) :
    (frun evs).inflight.length ≤ 1 ∧
    (loadRC f).inflight = [f.nextId] ∧
    r ∉ (loadRC f).inflight ∧
    (loadRC f).running = some f.nextId := by
  obtain ⟨hfl, hbound⟩ := hf
  rw [hr] at hfl
  have hlt : r < f.nextId := hbound r (by rw [hfl]; simp)
  refine ⟨?_, ?_, ?_, ?_⟩
  · have h := (goodF_frun evs).1
    rw [h]
    cases (frun evs).running <;> simp
  · simp [loadRC, abortPrev, hr, hfl]
  · simp only [loadRC, abortPrev, hr, hfl, List.erase_cons_head, List.mem_singleton]
    omega
  · simp [loadRC, abortPrev, hr]

/-- C9 (witness): the theorem applied to a concrete state with one
running request. -/
theorem c9_witness :
    (loadRC ⟨some 0, [0], 1⟩).inflight = [1] ∧
    0 ∉ (loadRC ⟨some 0, [0], 1⟩).inflight :=
  ⟨(c9_single_fetch [] ⟨some 0, [0], 1⟩ 0 (by decide) rfl).2.1,
   (c9_single_fetch [] ⟨some 0, [0], 1⟩ 0 (by decide) rfl).2.2.1⟩

/-- C10: `destroy` leaves the registry unchanged (the destroyed instance
keeps its slot), and a later `show` on another instance still applies the
hide sweep to the destroyed instance: its hidden form is a member of the
resulting registry, with the hide effects (timer cleared, document
listener removed, click flag reset) applied. -/
theorem c10_registry_retains_destroyed (g : GState) (d b : Nat) (s : IState)
    (hs : s ∈ g) (hid : s.id = d) (hdb : d ≠ b) :
    ((gstep (GEv.destroy d) g).map (fun t => t.id) = g.map (fun t => t.id)) ∧
    destroyL s ∈ gstep (GEv.destroy d) g ∧
    hideL (destroyL s) ∈ gstep (GEv.show b) (gstep (GEv.destroy d) g) ∧
    (hideL (destroyL s)).hidePending = false ∧
    (hideL (destroyL s)).docListener = false ∧
    (hideL (destroyL s)).wasClicked = false := by
  have hm : destroyL s ∈ gstep (GEv.destroy d) g :=
    List.mem_map.mpr ⟨s, hs, by simp [hid]⟩
  refine ⟨?_, hm, ?_, ?_, ?_, ?_⟩
  · refine ids_map g _ (fun t _ => ?_)
    by_cases hb : t.id = d
    · rw [if_pos hb]; rfl
    · rw [if_neg hb]
  · have hne : (destroyL s).id ≠ b := by
      show s.id ≠ b
      rw [hid]
      exact hdb
    exact List.mem_map.mpr ⟨destroyL s, hm, by simp [hne]⟩
  · unfold hideL; split_ifs <;> rfl
  · unfold hideL; split_ifs <;> rfl
  · unfold hideL; split_ifs <;> rfl

/-- C10 (witness): the theorem applied to a concrete two-instance registry
in which instance 0 is destroyed and instance 1 is then shown. -/
theorem c10_witness :
    destroyL (initI 0) ∈ gstep (GEv.destroy 0) [initI 0, initI 1] ∧
    hideL (destroyL (initI 0)) ∈
      gstep (GEv.show 1) (gstep (GEv.destroy 0) [initI 0, initI 1]) :=
  ⟨(c10_registry_retains_destroyed [initI 0, initI 1] 0 1 (initI 0)
      (List.mem_cons_self _ _) rfl (by decide)).2.1,
   (c10_registry_retains_destroyed [initI 0, initI 1] 0 1 (initI 0)
      (List.mem_cons_self _ _) rfl (by decide)).2.2.1⟩
